import Mathlib

/-!
Verification of the `described_routes` Python module: a tree model of
resource templates (`ResourceTemplate` nodes collected in
`ResourceTemplates` lists) with URI/path expansion, partial expansion,
parameter bookkeeping and lookup operations.

The embedding is shallow: Python objects become inductive values, dicts of
known keys become records of `Option` fields (Python's `d.get` cannot
distinguish an absent key from a key stored with value `None`, so both map
to `none`), Python truthiness of an optional string / list is made explicit
(`truthyS`, nonempty list), and fallible methods return `Except PyError`.
The external `uri_template.sub` collaborator is a parameter of the
functions that delegate to it, as the spec treats it as an external
collaborator.
-/

namespace DescribedRoutes

/-- A parameter mapping (Python dict passed as `actual_params`); only key
membership and pass-through to the expander matter at this layer. -/
abbrev Params := List (String × String)

/-- Python `p in actual_params` (dict key membership). -/
def hasKey (actual : Params) (k : String) : Bool :=
  actual.any (fun kv => kv.fst == k)

/-- Python truthiness of an optional string: `None` and `""` are falsy. -/
def truthyS : Option String → Bool
  | none => false
  | some s => !(s == "")

/-- Errors raised by the module. Message payloads are kept only where a
claim depends on them (`KeyError`); the others carry none. -/
inductive PyError : Type where
  | keyError (msg : String)
  | runtimeError
  | nameError
  | attributeError
  | typeError
deriving DecidableEq, Repr

/-- One node of the route metadata tree: mirrors the attributes set by
`ResourceTemplate.__init__` (`name`, `rel`, `uri_template`,
`path_template` default to `None`; `params`, `optional_params`, `options`
default to `[]`; `resource_templates` is the ordered child list). -/
inductive ResourceTemplate : Type where
  | mk (name rel uri_template path_template : Option String)
      (params optional_params options : List String)
      (resource_templates : List ResourceTemplate)

namespace ResourceTemplate

def name : ResourceTemplate → Option String
  | .mk n _ _ _ _ _ _ _ => n

def rel : ResourceTemplate → Option String
  | .mk _ r _ _ _ _ _ _ => r

def uri_template : ResourceTemplate → Option String
  | .mk _ _ u _ _ _ _ _ => u

def path_template : ResourceTemplate → Option String
  | .mk _ _ _ pt _ _ _ _ => pt

def params : ResourceTemplate → List String
  | .mk _ _ _ _ ps _ _ _ => ps

def optional_params : ResourceTemplate → List String
  | .mk _ _ _ _ _ ops _ _ => ops

def options : ResourceTemplate → List String
  | .mk _ _ _ _ _ _ opts _ => opts

def resource_templates : ResourceTemplate → List ResourceTemplate
  | .mk _ _ _ _ _ _ _ cs => cs

/-- Python `ResourceTemplate.positional_params`: `params + optional_params`, with
the parent's `params` removed when a parent is supplied (`if parent:` is
true exactly when the argument is not `None`, since a node object is
always truthy). -/
def positional_params (t : ResourceTemplate) (parent : Option ResourceTemplate) :
    List String :=
  let all_params := t.params ++ t.optional_params
  match parent with
  | some par => all_params.filter (fun p => !(par.params.contains p))
  | none => all_params

/-- Python `ResourceTemplate.find_by_rel`: the direct children whose `rel` equals
the given value. -/
def find_by_rel (t : ResourceTemplate) (r : Option String) :
    List ResourceTemplate :=
  t.resource_templates.filter (fun c => c.rel == r)

/-- The list comprehension `[p for p in self.params if p not in actual_params]`
computed at the top of both `uri_for` and `path_for`. -/
def missing_params (t : ResourceTemplate) (actual : Params) : List String :=
  t.params.filter (fun p => !hasKey actual p)

/-- Python `ResourceTemplate.uri_template_for_base`: the node's `uri_template` if
truthy, else `base + path_template` when both are truthy, else `None`
(the Python method falls off the end). -/
def uri_template_for_base (t : ResourceTemplate) (base : Option String) :
    Option String :=
  if truthyS t.uri_template then t.uri_template
  else if truthyS base && truthyS t.path_template then
    some (base.getD "" ++ t.path_template.getD "")
  else none

/-- Python `ResourceTemplate.uri_for`: KeyError on missing required params, then
RuntimeError when `uri_template_for_base(base)` is falsy, else delegation
to the external expander `uri_template.sub` (here the parameter `sub`).
The RuntimeError message (built from `repr(base)` and the path template)
is elided. -/
def uri_for (sub : String → Params → String) (t : ResourceTemplate)
    (actual : Params) (base : Option String) : Except PyError String :=
  if !(missing_params t actual).isEmpty then
    Except.error (PyError.keyError
      ("missing params " ++ String.intercalate ", " (missing_params t actual)))
  else
    let tmpl := uri_template_for_base t base
    if !truthyS tmpl then Except.error PyError.runtimeError
    else Except.ok (sub (tmpl.getD "") actual)

/-- Python `ResourceTemplate.path_for`: KeyError on missing required params,
RuntimeError when `path_template` is falsy; the final line
`return uri_template.sub(path_template, actual_params)` reads the unbound
bare name `path_template` (not `self.path_template`), so Python raises
NameError before any expansion can happen. -/
def path_for (t : ResourceTemplate) (actual : Params) : Except PyError String :=
  if !(missing_params t actual).isEmpty then
    Except.error (PyError.keyError
      ("missing params " ++ String.intercalate ", " (missing_params t actual)))
  else if !truthyS t.path_template then Except.error PyError.runtimeError
  else Except.error PyError.nameError

/-- Modelled from the spec (§4.1 `pathFor`, the intended behaviour of
`ResourceTemplate.path_for`): after the same checks, delegate to
`expand(pathTemplate, actualParams)` on the node's own path template. -/
def path_forSpec (sub : String → Params → String) (t : ResourceTemplate)
    (actual : Params) : Except PyError String :=
  if !(missing_params t actual).isEmpty then
    Except.error (PyError.keyError
      ("missing params " ++ String.intercalate ", " (missing_params t actual)))
  else if !truthyS t.path_template then Except.error PyError.runtimeError
  else Except.ok (sub (t.path_template.getD "") actual)

/-- Python `ResourceTemplate.partial_expand_uri_template`: partially expand a
URI template via `uri_template.sub(ut, actual_params, partial=True)` (the
parameter `psub`) when `ut` is truthy; otherwise the method returns
`None`. -/
def partial_expand_uri_template (psub : String → Params → String)
    (ut : Option String) (actual : Params) : Option String :=
  if truthyS ut then some (psub (ut.getD "") actual) else none

end ResourceTemplate

mutual

/-- Python `ResourceTemplate.partial_expand`: a new node with the same `name`,
`rel` and `options`, both templates partially expanded, `params` and
`optional_params` filtered down to the names not present in
`actual_params`, and every child recursively partially expanded. -/
def ResourceTemplate.partial_expand (psub : String → Params → String) :
    ResourceTemplate → Params → ResourceTemplate
  | .mk n r u pt ps ops opts cs, actual =>
      .mk n r
        (ResourceTemplate.partial_expand_uri_template psub u actual)
        (ResourceTemplate.partial_expand_uri_template psub pt actual)
        (ps.filter (fun p => !hasKey actual p))
        (ops.filter (fun p => !hasKey actual p))
        opts
        (ResourceTemplates.partial_expand psub cs actual)

/-- Python `ResourceTemplates.partial_expand`: each member partially expanded, in
order, collected into a new list. -/
def ResourceTemplates.partial_expand (psub : String → Params → String) :
    List ResourceTemplate → Params → List ResourceTemplate
  | [], _ => []
  | t :: ts, actual =>
      ResourceTemplate.partial_expand psub t actual
        :: ResourceTemplates.partial_expand psub ts actual

end

mutual

/-- A node together with all of its descendants, in depth-first pre-order
(the node, then each child subtree in sibling order). -/
def ResourceTemplate.subtemplates : ResourceTemplate → List ResourceTemplate
  | .mk n r u pt ps ops opts cs =>
      .mk n r u pt ps ops opts cs :: ResourceTemplates.subtemplates cs

/-- All nodes of a collection in depth-first pre-order. -/
def ResourceTemplates.subtemplates : List ResourceTemplate → List ResourceTemplate
  | [] => []
  | t :: ts =>
      ResourceTemplate.subtemplates t ++ ResourceTemplates.subtemplates ts

end

/-- A name index (the Python dict built by `all_by_name`, keyed by node
name). -/
abbrev NameDict := String → Option ResourceTemplate

/-- Python dict assignment `d[k] = t`, as function update. -/
def dictSet (d : NameDict) (k : String) (t : ResourceTemplate) : NameDict :=
  fun k' => if k' = k then some t else d k'

mutual

/-- The body of the `ResourceTemplates.all_by_name` loop for one member:
`if rt.name: d[rt.name] = rt`, then recurse into its children
(`rt.resource_templates.all_by_name(d)`). -/
def ResourceTemplate.all_by_name_node : ResourceTemplate → NameDict → NameDict
  | .mk n r u pt ps ops opts cs, d =>
      ResourceTemplates.all_by_name cs
        (if truthyS n then dictSet d (n.getD "") (.mk n r u pt ps ops opts cs)
        else d)

/-- Python `ResourceTemplates.all_by_name` with an explicitly supplied
accumulator: fold the per-member body over the collection in order. -/
def ResourceTemplates.all_by_name : List ResourceTemplate → NameDict → NameDict
  | [], d => d
  | rt :: rts, d =>
      ResourceTemplates.all_by_name rts (ResourceTemplate.all_by_name_node rt d)

end

/-- Python `all_by_name()` with the accumulator defaulted: `d is None` starts a
fresh empty dict. -/
def ResourceTemplates.all_by_name_default (ts : List ResourceTemplate) : NameDict :=
  ResourceTemplates.all_by_name ts (fun _ => none)

/-- Whether a node is recorded under key `k` by `all_by_name`: its name is
truthy and equals `k`. -/
def isNamed (t : ResourceTemplate) (k : String) : Bool :=
  truthyS t.name && (t.name.getD "" == k)

/-- The generic dict produced by `to_dict` and consumed by `__init__`:
`Option` fields stand for present keys (`d.get` conflates an absent key
with one stored as `None`, so both are `none`; a truthy dict is one with
at least one key present). -/
inductive RTDict : Type where
  | mk (name rel uri_template path_template : Option String)
      (params optional_params options : Option (List String))
      (resource_templates : Option (List RTDict))

/-- Python truthiness of the dict (`if d:`): it has at least one key. -/
def RTDict.truthy : RTDict → Bool
  | .mk n r u pt ps ops opts cs =>
      n.isSome || r.isSome || u.isSome || pt.isSome || ps.isSome || ops.isSome
        || opts.isSome || cs.isSome

/-- A string-valued attribute as emitted by `to_dict`: stored only when
truthy (`if val: d[attr] = val`). -/
def putS (v : Option String) : Option String :=
  if truthyS v then v else none

/-- A list-valued attribute as emitted by `to_dict`: stored only when
nonempty. -/
def putL (v : List String) : Option (List String) :=
  if v.isEmpty then none else some v

mutual

/-- Python `ResourceTemplate.to_dict`: emit the truthy attributes among `name`,
`rel`, `uri_template`, `path_template`, `params`, `optional_params`,
`options`, plus `resource_templates` (children serialized by `to_list`)
when the child list is nonempty. -/
def ResourceTemplate.to_dict : ResourceTemplate → RTDict
  | .mk n r u pt ps ops opts cs =>
      .mk (putS n) (putS r) (putS u) (putS pt) (putL ps) (putL ops) (putL opts)
        (if cs.isEmpty then none else some (ResourceTemplates.to_list cs))

/-- Python `ResourceTemplates.to_list`: `[t.to_dict() for t in self]`. -/
def ResourceTemplates.to_list : List ResourceTemplate → List RTDict
  | [] => []
  | t :: ts => ResourceTemplate.to_dict t :: ResourceTemplates.to_list ts

end

mutual

/-- The attribute-extraction part of `ResourceTemplate.__init__` applied
to a dict: string attributes via `d.get(attr)` (default `None`), list
attributes via `d.get(attr, [])`, children recursively materialized by
`ResourceTemplates(d.get('resource_templates', []))`. -/
def ResourceTemplate.ofDict : RTDict → ResourceTemplate
  | .mk n r u pt ps ops opts cs =>
      .mk n r u pt (ps.getD []) (ops.getD []) (opts.getD [])
        (match cs with
        | none => []
        | some l => ResourceTemplates.ofList l)

/-- Python `ResourceTemplates.__init__` on a list of dicts: materialize each in
order. -/
def ResourceTemplates.ofList : List RTDict → List ResourceTemplate
  | [] => []
  | d :: ds => ResourceTemplate.ofDict d :: ResourceTemplates.ofList ds

end

/-- Python `ResourceTemplate.__init__` called with a dict and keyword arguments
(children given as dicts): when `d` is truthy and `kwargs` is nonempty
the merge path runs `d = d.clone` — Python dicts have no `clone`
attribute, so this raises AttributeError; otherwise the attributes come
from whichever of the two is truthy (`else: d = kwargs`). -/
def ResourceTemplate.init (d : RTDict) (kwargs : RTDict) :
    Except PyError ResourceTemplate :=
  if d.truthy then
    if kwargs.truthy then Except.error PyError.attributeError
    else Except.ok (ResourceTemplate.ofDict d)
  else Except.ok (ResourceTemplate.ofDict kwargs)

mutual

/-- No optional string attribute of the node (or of any descendant) is
the empty string: under this condition serialization drops nothing that
reconstruction cannot restore. -/
def ResourceTemplate.wfStrings : ResourceTemplate → Bool
  | .mk n r u pt _ _ _ cs =>
      !(n == some "") && !(r == some "") && !(u == some "") && !(pt == some "")
        && ResourceTemplates.wfStringsList cs

/-- Predicate `wfStrings` over every member of a collection. -/
def ResourceTemplates.wfStringsList : List ResourceTemplate → Bool
  | [] => true
  | t :: ts =>
      ResourceTemplate.wfStrings t && ResourceTemplates.wfStringsList ts

end

/-- One allocated node object in the heap model of `partial_expand`: the
same attributes as `ResourceTemplate`, with children held as references
(heap indices), as Python objects hold references. -/
structure NodeRec : Type where
  name : Option String
  rel : Option String
  uri_template : Option String
  path_template : Option String
  params : List String
  optional_params : List String
  options : List String
  children : List Nat
deriving DecidableEq, Repr

/-- An object heap: node records indexed by allocation order; appending
allocates a fresh object. -/
abbrev Heap := List NodeRec

/-- Thread a heap through a list of fallible allocating steps, collecting
the returned references in order. -/
def expandList (f : Heap → Nat → Option (Heap × Nat)) :
    Heap → List Nat → Option (Heap × List Nat)
  | h, [] => some (h, [])
  | h, c :: cs =>
    match f h c with
    | none => none
    | some (h1, i1) =>
      match expandList f h1 cs with
      | none => none
      | some (h2, rest) => some (h2, i1 :: rest)

/-- Heap model of `ResourceTemplate.partial_expand` (fuel-bounded, since
references are not structural): read the receiver record, partially
expand every child left to right (each call only allocating), then
allocate the brand-new node at the end of the heap and return its
reference. Existing records are never written. -/
def partial_expand_heap (psub : String → Params → String) :
    Nat → Heap → Nat → Params → Option (Heap × Nat)
  | 0, _, _, _ => none
  | fuel + 1, h, i, p =>
    match h[i]? with
    | none => none
    | some n =>
      match expandList (fun h' c => partial_expand_heap psub fuel h' c p) h
          n.children with
      | none => none
      | some (h1, ids) =>
        some (h1 ++ [⟨n.name, n.rel,
            ResourceTemplate.partial_expand_uri_template psub n.uri_template p,
            ResourceTemplate.partial_expand_uri_template psub n.path_template p,
            n.params.filter (fun x => !hasKey p x),
            n.optional_params.filter (fun x => !hasKey p x),
            n.options, ids⟩],
          h1.length)

/-- A sample tree (a `user` node with one child) used for concrete
evaluations. -/
def sampleTree : ResourceTemplate :=
  ResourceTemplate.mk (some "user") none (some "http://example.com/users/1")
    none ["user_id"] ["format"] ["GET", "PUT"]
    [ResourceTemplate.mk (some "edit_user") (some "edit")
      (some "http://example.com/users/1/edit") none ["user_id"] [] ["GET"] []]

/-- A sample two-record heap: index 0 a leaf node, index 1 its parent. -/
def sampleHeap : Heap :=
  [⟨some "user_article", none, none, none, ["a"], [], [], []⟩,
    ⟨some "user_articles", none, none, none, ["a"], [], [], [0]⟩]

/-- The heap `sampleHeap` after heap-based partial expansion of the node at index 1
with the mapping `[("a", "1")]`: the two original records followed by the
two freshly allocated ones. -/
def sampleHeapExpanded : Heap :=
  [⟨some "user_article", none, none, none, ["a"], [], [], []⟩,
    ⟨some "user_articles", none, none, none, ["a"], [], [], [0]⟩,
    ⟨some "user_article", none, none, none, [], [], [], []⟩,
    ⟨some "user_articles", none, none, none, [], [], [], [2]⟩]

end DescribedRoutes

namespace DescribedRoutes

open ResourceTemplate

/-- C6: method `positional_params` returns `params ++ optional_params` in that
order, minus every name appearing in the parent's `params`; with no parent
the full concatenation is returned; and on the concrete scenario
(`params = [user_id, article_id]`, `optional_params = [format]`, parent
`params = [user_id]`) it returns `[article_id, format]`. -/
theorem positional_params_spec (t par : ResourceTemplate) :
    positional_params t (some par)
        = (t.params ++ t.optional_params).filter (fun p => !(par.params.contains p))
      ∧ positional_params t none = t.params ++ t.optional_params
      ∧ positional_params
          (ResourceTemplate.mk none none none none ["user_id", "article_id"]
            ["format"] [] [])
          (some (ResourceTemplate.mk none none none none ["user_id"] [] [] []))
          = ["article_id", "format"] := by
  refine ⟨rfl, rfl, by decide⟩

/-- C7: method `find_by_rel` returns exactly the direct children with the given
`rel`, in child order (a sublist of the child list, sound and complete for
the relation test), and never the node itself. -/
theorem find_by_rel_spec (t : ResourceTemplate) (r : Option String) :
    (find_by_rel t r).Sublist t.resource_templates
      ∧ (∀ c ∈ find_by_rel t r, c ∈ t.resource_templates ∧ c.rel = r)
      ∧ (∀ c ∈ t.resource_templates, c.rel = r → c ∈ find_by_rel t r)
      ∧ t ∉ find_by_rel t r := by
  refine ⟨List.filter_sublist _, ?_, ?_, ?_⟩
  · intro c hc
    have hmem := List.mem_of_mem_filter hc
    have hrel := List.of_mem_filter hc
    exact ⟨hmem, by simpa using hrel⟩
  · intro c hc hr
    exact List.mem_filter.mpr ⟨hc, by simp [hr]⟩
  · intro hself
    have hmem : t ∈ t.resource_templates := List.mem_of_mem_filter hself
    have hlt : sizeOf t < sizeOf t := by
      have h1 : sizeOf t < sizeOf t.resource_templates :=
        List.sizeOf_lt_of_mem hmem
      have h2 : sizeOf t.resource_templates < sizeOf t := by
        cases t with
        | mk n r u pt ps ops opts cs => simp [ResourceTemplate.resource_templates]
      omega
    exact absurd hlt (lt_irrefl _)

/-- The list `missing_params` is empty exactly when every required param is a key of
the supplied mapping. -/
theorem missing_params_eq_nil_iff (t : ResourceTemplate) (actual : Params) :
    missing_params t actual = [] ↔ ∀ p ∈ t.params, hasKey actual p = true := by
  unfold ResourceTemplate.missing_params
  rw [List.filter_eq_nil_iff]
  constructor
  · intro h p hp
    have := h p hp
    simpa using this
  · intro h p hp
    simp [h p hp]

/-- Method `uri_template_for_base` never returns the empty string: it either
passes through a truthy `uri_template` or concatenates a truthy base with
a truthy path template. -/
theorem uri_template_for_base_ne_empty (t : ResourceTemplate)
    (base : Option String) : uri_template_for_base t base ≠ some "" := by
  unfold ResourceTemplate.uri_template_for_base
  split
  · rename_i hu
    intro h
    rw [h] at hu
    simp [truthyS] at hu
  · split
    · rename_i hbp
      intro h
      have hb : truthyS base = true := (Bool.and_eq_true _ _).mp hbp |>.1
      have hbase : base.getD "" ≠ "" := by
        cases base with
        | none => simp [truthyS] at hb
        | some s =>
          simp [truthyS] at hb
          simpa using hb
      have hcat : base.getD "" ++ t.path_template.getD "" = "" :=
        Option.some.inj h
      have hdata : (base.getD "").data ++ (t.path_template.getD "").data = [] := by
        have := congrArg String.data hcat
        rwa [String.data_append] at this
      have hnl : (base.getD "").data = [] := (List.append_eq_nil.mp hdata).1
      exact hbase (String.ext (show (base.getD "").data = String.data "" from hnl))
    · exact fun h => by simp at h

/-- C2 (code bug): on a node with `path_template = "/path"` and no
required params, `path_for({})` hits the line
`return uri_template.sub(path_template, actual_params)` whose bare name
`path_template` is unbound, so the call raises NameError, while the
spec-modelled `path_for` returns the expanded path template. -/
theorem path_for_unbound_name :
    path_for (ResourceTemplate.mk none none none (some "/path") [] [] [] []) []
        = Except.error PyError.nameError
      ∧ path_forSpec (fun s _ => s)
          (ResourceTemplate.mk none none none (some "/path") [] [] [] []) []
        = Except.ok "/path" := by
  constructor <;> rfl

/-- C3: methods `uri_for` and `path_for` raise KeyError exactly when some required
param is missing from the supplied mapping, and the KeyError message is
`"missing params "` followed by the missing names, comma-joined, in the
order they appear in `params`. -/
theorem missing_param_errors (sub : String → Params → String)
    (t : ResourceTemplate) (actual : Params) (base : Option String) :
    ((∃ m, uri_for sub t actual base = Except.error (PyError.keyError m))
        ↔ ¬ ∀ p ∈ t.params, hasKey actual p = true)
      ∧ ((∃ m, path_for t actual = Except.error (PyError.keyError m))
        ↔ ¬ ∀ p ∈ t.params, hasKey actual p = true)
      ∧ (∀ m, uri_for sub t actual base = Except.error (PyError.keyError m) →
          m = "missing params "
              ++ String.intercalate ", " (t.params.filter (fun p => !hasKey actual p)))
      ∧ (∀ m, path_for t actual = Except.error (PyError.keyError m) →
          m = "missing params "
              ++ String.intercalate ", " (t.params.filter (fun p => !hasKey actual p))) := by
  have hmiss : missing_params t actual = t.params.filter (fun p => !hasKey actual p) := rfl
  by_cases hnil : missing_params t actual = []
  · have hall : ∀ p ∈ t.params, hasKey actual p = true :=
      (missing_params_eq_nil_iff t actual).mp hnil
    have huri : ∀ m, uri_for sub t actual base ≠ Except.error (PyError.keyError m) := by
      intro m
      unfold ResourceTemplate.uri_for
      rw [hnil]
      simp only [List.isEmpty_nil, Bool.not_true, Bool.false_eq_true, if_false]
      split
      · exact fun h => by cases h
      · exact fun h => by cases h
    have hpath : ∀ m, path_for t actual ≠ Except.error (PyError.keyError m) := by
      intro m
      unfold ResourceTemplate.path_for
      rw [hnil]
      simp only [List.isEmpty_nil, Bool.not_true, Bool.false_eq_true, if_false]
      split
      · exact fun h => by cases h
      · exact fun h => by cases h
    refine ⟨?_, ?_, ?_, ?_⟩
    · exact ⟨fun ⟨m, hm⟩ => absurd hm (huri m), fun h => absurd hall h⟩
    · exact ⟨fun ⟨m, hm⟩ => absurd hm (hpath m), fun h => absurd hall h⟩
    · exact fun m hm => absurd hm (huri m)
    · exact fun m hm => absurd hm (hpath m)
  · have hne : (missing_params t actual).isEmpty = false := by
      cases h : missing_params t actual with
      | nil => exact absurd h hnil
      | cons a l => simp
    have huri : uri_for sub t actual base
        = Except.error (PyError.keyError
            ("missing params "
              ++ String.intercalate ", " (missing_params t actual))) := by
      unfold ResourceTemplate.uri_for
      rw [hne]
      simp
    have hpath : path_for t actual
        = Except.error (PyError.keyError
            ("missing params "
              ++ String.intercalate ", " (missing_params t actual))) := by
      unfold ResourceTemplate.path_for
      rw [hne]
      simp
    have hnall : ¬ ∀ p ∈ t.params, hasKey actual p = true := fun h =>
      hnil ((missing_params_eq_nil_iff t actual).mpr h)
    refine ⟨?_, ?_, ?_, ?_⟩
    · exact ⟨fun _ => hnall, fun _ => ⟨_, huri⟩⟩
    · exact ⟨fun _ => hnall, fun _ => ⟨_, hpath⟩⟩
    · intro m hm
      rw [huri] at hm
      have := (Except.error.inj hm)
      rw [← hmiss]
      exact (PyError.keyError.inj this).symm
    · intro m hm
      rw [hpath] at hm
      have := (Except.error.inj hm)
      rw [← hmiss]
      exact (PyError.keyError.inj this).symm

/-- C4: method `uri_template_for_base` returns the node's truthy `uri_template`,
else `base + path_template` when both are truthy, else nothing; and, all
required params being supplied, `uri_for` raises RuntimeError exactly when
that effective template is absent and otherwise delegates its expansion to
the external expander. -/
theorem uri_for_template_resolution (sub : String → Params → String)
    (t : ResourceTemplate) (actual : Params) (base : Option String)
    (hreq : missing_params t actual = []) :
    (truthyS t.uri_template = true → uri_template_for_base t base = t.uri_template)
      ∧ (truthyS t.uri_template = false →
          (truthyS base && truthyS t.path_template) = true →
          uri_template_for_base t base
            = some (base.getD "" ++ t.path_template.getD ""))
      ∧ (truthyS t.uri_template = false →
          (truthyS base && truthyS t.path_template) = false →
          uri_template_for_base t base = none)
      ∧ (uri_for sub t actual base = Except.error PyError.runtimeError
          ↔ uri_template_for_base t base = none)
      ∧ (∀ s, uri_template_for_base t base = some s →
          uri_for sub t actual base = Except.ok (sub s actual)) := by
  refine ⟨?_, ?_, ?_, ?_, ?_⟩
  · intro hu
    simp [ResourceTemplate.uri_template_for_base, hu]
  · intro hu hbp
    simp [ResourceTemplate.uri_template_for_base, hu, hbp]
  · intro hu hbp
    simp [ResourceTemplate.uri_template_for_base, hu, hbp]
  · unfold ResourceTemplate.uri_for
    rw [hreq]
    simp only [List.isEmpty_nil, Bool.not_true, Bool.false_eq_true, if_false]
    cases h : uri_template_for_base t base with
    | none => simp [truthyS]
    | some s =>
      have hs : s ≠ "" := fun he => uri_template_for_base_ne_empty t base (he ▸ h)
      constructor
      · intro habs
        rw [if_neg] at habs
        · cases habs
        · simp [truthyS, hs]
      · intro habs
        cases habs
  · intro s h
    unfold ResourceTemplate.uri_for
    rw [hreq]
    have hs : s ≠ "" := fun he => uri_template_for_base_ne_empty t base (he ▸ h)
    simp only [List.isEmpty_nil, Bool.not_true, Bool.false_eq_true, if_false]
    rw [h]
    rw [if_neg]
    · rfl
    · simp [truthyS, hs]

mutual

/-- Pre-order correspondence: the pre-order node list of a partially
expanded node is the original pre-order list mapped through pointwise
partial expansion (node form). -/
theorem subtemplates_partial_expand_node (psub : String → Params → String)
    (p : Params) :
    ∀ t : ResourceTemplate,
      (ResourceTemplate.partial_expand psub t p).subtemplates
        = t.subtemplates.map (fun d => ResourceTemplate.partial_expand psub d p)
  | .mk n r u pt ps ops opts cs => by
      simp [ResourceTemplate.partial_expand, ResourceTemplate.subtemplates,
        subtemplates_partial_expand_list psub p cs]

/-- Pre-order correspondence, list form. -/
theorem subtemplates_partial_expand_list (psub : String → Params → String)
    (p : Params) :
    ∀ ts : List ResourceTemplate,
      ResourceTemplates.subtemplates (ResourceTemplates.partial_expand psub ts p)
        = (ResourceTemplates.subtemplates ts).map
            (fun d => ResourceTemplate.partial_expand psub d p)
  | [] => by
      simp [ResourceTemplates.partial_expand, ResourceTemplates.subtemplates]
  | t :: ts => by
      simp [ResourceTemplates.partial_expand, ResourceTemplates.subtemplates,
        subtemplates_partial_expand_node psub p t,
        subtemplates_partial_expand_list psub p ts]

end

/-- C1: partial expansion leaves `params` equal to the original `params`
with exactly the keys of the supplied mapping removed (order preserved),
likewise `optional_params`, and — the pre-order node list of the result
being the pointwise partial expansion of the original's — the same two
equalities hold at every descendant of the result. -/
theorem partial_expand_param_reduction (psub : String → Params → String)
    (p : Params) (t : ResourceTemplate) :
    (ResourceTemplate.partial_expand psub t p).params
        = t.params.filter (fun x => !hasKey p x)
      ∧ (ResourceTemplate.partial_expand psub t p).optional_params
        = t.optional_params.filter (fun x => !hasKey p x)
      ∧ (ResourceTemplate.partial_expand psub t p).subtemplates
        = t.subtemplates.map (fun d => ResourceTemplate.partial_expand psub d p) := by
  refine ⟨?_, ?_, subtemplates_partial_expand_node psub p t⟩ <;>
    cases t with
    | mk n r u pt ps ops opts cs =>
      simp [ResourceTemplate.partial_expand, ResourceTemplate.params,
        ResourceTemplate.optional_params]

/-- Concrete instantiation of `uri_for_template_resolution`: a node whose
`uri_template` is set expands it directly. -/
theorem uri_for_template_resolution_witness :
    uri_for (fun s _ => s)
        (ResourceTemplate.mk none none (some "http://example.com/users") none
          [] [] [] []) [] none
      = Except.ok "http://example.com/users" :=
  (uri_for_template_resolution (fun s _ => s)
      (ResourceTemplate.mk none none (some "http://example.com/users") none
        [] [] [] []) [] none rfl).2.2.2.2
    "http://example.com/users" (by decide)

/-- Taking `getLast?` of a cons: the tail's last element, falling back to the
head. -/
theorem getLast?_cons_or (a : α) (l : List α) :
    (a :: l).getLast? = (l.getLast?).or (some a) := by
  induction l generalizing a with
  | nil => simp
  | cons b l' ih =>
    rw [List.getLast?_cons_cons, ih b, Option.or_assoc, Option.or_some]

/-- Taking `getLast?` of an append: the right part's last element, falling back
to the left part's. -/
theorem getLast?_append_or (l1 l2 : List α) :
    (l1 ++ l2).getLast? = (l2.getLast?).or l1.getLast? := by
  induction l1 with
  | nil => simp [Option.or_none]
  | cons a l1 ih =>
    rw [List.cons_append, getLast?_cons_or, ih, Option.or_assoc,
      ← getLast?_cons_or]

/-- Unfolding `isNamed` on a constructed node, unfolded. -/
theorem isNamed_mk (n r u pt : Option String) (ps ops opts : List String)
    (cs : List ResourceTemplate) (k : String) :
    isNamed (.mk n r u pt ps ops opts cs) k
      = (truthyS n && (n.getD "" == k)) := rfl

/-- Applying `dictSet` to a key. -/
theorem dictSet_apply (d : NameDict) (k : String) (t : ResourceTemplate)
    (k' : String) :
    dictSet d k t k' = if k' = k then some t else d k' := rfl

mutual

/-- Name-index characterization, node form: processing one node on top of
accumulator `d` yields, at key `k`, the last node of this subtree's
pre-order list recorded under `k`, falling back to `d k`. -/
theorem all_by_name_node_spec (k : String) :
    ∀ (t : ResourceTemplate) (d : NameDict),
      ResourceTemplate.all_by_name_node t d k
        = ((t.subtemplates.filter (fun x => isNamed x k)).getLast?).or (d k)
  | .mk n r u pt ps ops opts cs, d => by
    rw [ResourceTemplate.all_by_name_node, all_by_name_list_spec k cs,
      ResourceTemplate.subtemplates]
    by_cases hN : isNamed (ResourceTemplate.mk n r u pt ps ops opts cs) k = true
    · have hT : truthyS n = true :=
        ((Bool.and_eq_true _ _).mp ((isNamed_mk n r u pt ps ops opts cs k) ▸ hN)).1
      have hE : n.getD "" = k :=
        eq_of_beq
          ((Bool.and_eq_true _ _).mp ((isNamed_mk n r u pt ps ops opts cs k) ▸ hN)).2
      rw [List.filter_cons_of_pos (p := fun x => isNamed x k) hN,
        getLast?_cons_or, Option.or_assoc,
        Option.or_some]
      congr 1
      simp [hT, dictSet_apply, hE]
    · rw [List.filter_cons_of_neg (p := fun x => isNamed x k) hN]
      congr 1
      cases hT : truthyS n with
      | false => simp [hT]
      | true =>
        have hk : ¬ (n.getD "" == k) = true := by
          intro hkeq
          exact hN (by rw [isNamed_mk, hT, hkeq]; rfl)
        simp only [hT, if_true, dictSet_apply]
        rw [if_neg]
        intro hkk
        exact hk (by rw [hkk]; exact beq_self_eq_true _)

/-- Name-index characterization, list form. -/
theorem all_by_name_list_spec (k : String) :
    ∀ (ts : List ResourceTemplate) (d : NameDict),
      ResourceTemplates.all_by_name ts d k
        = (((ResourceTemplates.subtemplates ts).filter
            (fun x => isNamed x k)).getLast?).or (d k)
  | [], d => by
    rw [ResourceTemplates.all_by_name, ResourceTemplates.subtemplates]
    simp
  | rt :: rts, d => by
    rw [ResourceTemplates.all_by_name, ResourceTemplates.subtemplates,
      all_by_name_list_spec k rts, all_by_name_node_spec k rt d,
      List.filter_append, getLast?_append_or, Option.or_assoc]

end

/-- C8: method `all_by_name` at any key returns the last node with that truthy
name in the depth-first pre-order traversal of the collection (each
member, then its children, in sibling order) — later visits overwrite
earlier ones — falling back to the supplied accumulator; the defaulted
call starts from a fresh empty dict. -/
theorem all_by_name_spec (ts : List ResourceTemplate) (d : NameDict)
    (k : String) :
    ResourceTemplates.all_by_name ts d k
        = (((ResourceTemplates.subtemplates ts).filter
            (fun x => isNamed x k)).getLast?).or (d k)
      ∧ ResourceTemplates.all_by_name_default ts k
        = (((ResourceTemplates.subtemplates ts).filter
            (fun x => isNamed x k)).getLast?).or none :=
  ⟨all_by_name_list_spec k ts d, all_by_name_list_spec k ts (fun _ => none)⟩

/-- Function `putS` is the identity on values that are not the empty string. -/
theorem putS_eq_self (v : Option String) (h : (v == some "") = false) :
    putS v = v := by
  cases v with
  | none => rfl
  | some s =>
    have hs : (s == "") = false := h
    simp [putS, truthyS, hs]

/-- Function `putL` followed by the `d.get(attr, [])` default is the identity. -/
theorem putL_getD (v : List String) : (putL v).getD [] = v := by
  cases v <;> rfl

mutual

/-- Round trip through `to_dict` and `__init__`, node form, on trees with
no empty-string attribute. -/
theorem roundtrip_node :
    ∀ t : ResourceTemplate, ResourceTemplate.wfStrings t = true →
      ResourceTemplate.ofDict (ResourceTemplate.to_dict t) = t
  | .mk n r u pt ps ops opts cs, h => by
    rw [ResourceTemplate.wfStrings] at h
    simp only [Bool.and_eq_true, Bool.not_eq_true'] at h
    obtain ⟨⟨⟨⟨hn, hr⟩, hu⟩, hpt⟩, hcs⟩ := h
    cases cs with
    | nil =>
      simp [ResourceTemplate.to_dict, ResourceTemplate.ofDict,
        putS_eq_self n hn, putS_eq_self r hr, putS_eq_self u hu,
        putS_eq_self pt hpt, putL_getD]
    | cons c cs' =>
      have hlist := roundtrip_list (c :: cs') hcs
      simp [ResourceTemplate.to_dict, ResourceTemplate.ofDict,
        putS_eq_self n hn, putS_eq_self r hr, putS_eq_self u hu,
        putS_eq_self pt hpt, putL_getD, hlist]

/-- Round trip through `to_list` and `ResourceTemplates.__init__`, list
form. -/
theorem roundtrip_list :
    ∀ ts : List ResourceTemplate, ResourceTemplates.wfStringsList ts = true →
      ResourceTemplates.ofList (ResourceTemplates.to_list ts) = ts
  | [], _ => rfl
  | t :: ts, h => by
    rw [ResourceTemplates.wfStringsList] at h
    simp only [Bool.and_eq_true] at h
    rw [ResourceTemplates.to_list, ResourceTemplates.ofList,
      roundtrip_node t h.1, roundtrip_list ts h.2]

end

/-- C5 counterexample: a node whose `name` is the empty string serializes
to a dict with no `name` key (the empty string is falsy, so `to_dict`
skips it), and reconstruction yields `name = None`: the rebuilt tree is
not structurally equal to the original. -/
theorem roundtrip_counterexample :
    ResourceTemplate.ofDict
        (ResourceTemplate.to_dict
          (ResourceTemplate.mk (some "") none none none [] [] [] []))
      ≠ ResourceTemplate.mk (some "") none none none [] [] [] [] := by
  intro h
  have hname := congrArg ResourceTemplate.name h
  simp [ResourceTemplate.to_dict, ResourceTemplate.ofDict, putS, truthyS,
    ResourceTemplate.name] at hname

/-- C5 (amended): rebuilding a tree from its serialized structure
(`ResourceTemplate(t.to_dict())` per node, `to_list` for collections)
reproduces a structurally equal tree, provided no optional string
attribute anywhere in the tree is the empty string. -/
theorem roundtrip_structural (t : ResourceTemplate)
    (ts : List ResourceTemplate)
    (h : ResourceTemplate.wfStrings t = true)
    (hl : ResourceTemplates.wfStringsList ts = true) :
    ResourceTemplate.ofDict (ResourceTemplate.to_dict t) = t
      ∧ ResourceTemplates.ofList (ResourceTemplates.to_list ts) = ts :=
  ⟨roundtrip_node t h, roundtrip_list ts hl⟩

/-- Concrete instantiation of `roundtrip_structural` on `sampleTree`. -/
theorem roundtrip_structural_witness :
    ResourceTemplate.ofDict (ResourceTemplate.to_dict sampleTree) = sampleTree
      ∧ ResourceTemplates.ofList (ResourceTemplates.to_list [sampleTree])
        = [sampleTree] :=
  roundtrip_structural sampleTree [sampleTree] (by decide) (by decide)

/-- C10: constructing from a truthy dict together with truthy keyword
arguments always raises AttributeError — the merge path evaluates
`d.clone`, which dicts do not have — so a mapping and keyword fields can
never be combined; a truthy dict alone does construct a node. -/
theorem init_dict_kwargs_attribute_error (d kwargs : RTDict)
    (hd : d.truthy = true) (hk : kwargs.truthy = true) :
    ResourceTemplate.init d kwargs = Except.error PyError.attributeError
      ∧ (∀ k2 : RTDict, k2.truthy = false →
          ResourceTemplate.init d k2
            = Except.ok (ResourceTemplate.ofDict d)) := by
  constructor
  · rw [ResourceTemplate.init, if_pos hd, if_pos hk]
  · intro k2 h2
    rw [ResourceTemplate.init, if_pos hd, if_neg (by simp [h2])]

/-- Concrete instantiation of `init_dict_kwargs_attribute_error`. -/
theorem init_dict_kwargs_attribute_error_witness :
    ResourceTemplate.init
        (RTDict.mk (some "users") none none none none none none none)
        (RTDict.mk none (some "index") none none none none none none)
      = Except.error PyError.attributeError :=
  (init_dict_kwargs_attribute_error
      (RTDict.mk (some "users") none none none none none none none)
      (RTDict.mk none (some "index") none none none none none none)
      (by decide) (by decide)).1

/-- Chaining two heap extensions. -/
theorem heap_extends_trans {h h1 h2 : Heap} {l : List NodeRec} (e : Heap)
    (h1eq : h1 = h ++ e) (h2eq : h1 ++ l = h2) : ∃ ext, h2 = h ++ ext :=
  ⟨e ++ l, by rw [← h2eq, h1eq, List.append_assoc]⟩

/-- Frame property of `expandList`: when every step only extends the heap, the
threaded run only extends the heap. -/
theorem expandList_frame (f : Heap → Nat → Option (Heap × Nat))
    (hf : ∀ h c h' i', f h c = some (h', i') → ∃ ext, h' = h ++ ext) :
    ∀ (cs : List Nat) (h h2 : Heap) (rest : List Nat),
      expandList f h cs = some (h2, rest) → ∃ ext, h2 = h ++ ext
  | [], h, h2, rest, heq => by
    rw [expandList] at heq
    simp only [Option.some.injEq, Prod.mk.injEq] at heq
    exact ⟨[], by rw [← heq.1, List.append_nil]⟩
  | c :: cs, h, h2, rest, heq => by
    rw [expandList] at heq
    split at heq
    · exact Option.noConfusion heq
    · rename_i h1 i1 hfc
      split at heq
      · exact Option.noConfusion heq
      · rename_i hmid rest2 hrec
        simp only [Option.some.injEq, Prod.mk.injEq] at heq
        obtain ⟨he1, _⟩ := heq
        obtain ⟨ext1, hext1⟩ := hf h c h1 i1 hfc
        obtain ⟨ext2, hext2⟩ := expandList_frame f hf cs h1 hmid rest2 hrec
        exact ⟨ext1 ++ ext2, by
          rw [← he1, hext2, hext1, List.append_assoc]⟩

/-- C9: the heap model of `partial_expand` is pure with respect to the
existing object graph — the result heap is the original extended by
freshly allocated records only, every pre-existing reference reads the
same record after the call (no field of any original node changes), and
the returned root (like every allocated node) is a brand-new reference. -/
theorem partial_expand_heap_frame (psub : String → Params → String)
    (p : Params) :
    ∀ (fuel : Nat) (h : Heap) (i : Nat) (h' : Heap) (i' : Nat),
      partial_expand_heap psub fuel h i p = some (h', i') →
      (∃ ext, h' = h ++ ext)
        ∧ (∀ j, j < h.length → h'[j]? = h[j]?)
        ∧ h.length ≤ i'
  | 0, h, i, h', i', heq => Option.noConfusion heq
  | fuel + 1, h, i, h', i', heq => by
    rw [partial_expand_heap] at heq
    split at heq
    · exact Option.noConfusion heq
    · rename_i n hn
      split at heq
      · exact Option.noConfusion heq
      · rename_i h1 ids hrec
        simp only [Option.some.injEq, Prod.mk.injEq] at heq
        obtain ⟨hh, hi⟩ := heq
        obtain ⟨ext, hext⟩ :=
          expandList_frame _
            (fun hh' cc hres ii hcall =>
              (partial_expand_heap_frame psub p fuel hh' cc hres ii hcall).1)
            n.children h h1 ids hrec
        have hfull : ∃ ext2, h' = h ++ ext2 := heap_extends_trans ext hext hh
        refine ⟨hfull, ?_, ?_⟩
        · intro j hj
          obtain ⟨e2, he2⟩ := hfull
          rw [he2, List.getElem?_append, if_pos hj]
        · rw [← hi, hext, List.length_append]
          omega

/-- Concrete instantiation of `partial_expand_heap_frame` on
`sampleHeap`. -/
theorem partial_expand_heap_frame_witness :
    (∃ ext, sampleHeapExpanded = sampleHeap ++ ext)
      ∧ (∀ j, j < sampleHeap.length →
          sampleHeapExpanded[j]? = sampleHeap[j]?)
      ∧ sampleHeap.length ≤ 3 :=
  partial_expand_heap_frame (fun s _ => s) [("a", "1")] 2 sampleHeap 1
    sampleHeapExpanded 3 (by decide)

end DescribedRoutes
